import Mathlib

set_option maxHeartbeats 1000000

/-!
Verification development for the FX technical-case repository
(`src/cloud_functions/utils/commons.py`).

The two functions under study are pure data transformations:

* `fetch_ecb_data_for_ytd` — the part after the HTTP call: it walks the
  parsed SDMX-JSON response, flattens it into base-rate records, and
  appends one synthesized identity record (EUR/EUR, rate 1.0) per
  distinct date.  The network transport is an external collaborator and
  is not modelled; the embedding takes the already-parsed response
  structure as input.
* `transform_to_fact_table` — pivots the base-rate records by date,
  then emits one cross-rate row per ordered currency pair of the
  configured universe.

Numeric rates are embedded as rationals.  A pandas pivot fills a
missing (date, currency) cell with float NaN; that value is embedded
explicitly by the `Cell` type, whose comparison and division operations
mirror IEEE/Python semantics (`NaN == 0` is false, `NaN != 0` is true,
division involving NaN yields NaN).
-/

/-- The configured currency universe, `TARGET_CURRENCIES` of
`commons.py` (line 9), in source order. -/
def TARGET_CURRENCIES : List String := ["NOK", "EUR", "SEK", "PLN", "RON", "DKK", "CZK"]

/-- The configured base currency, `BASE_CURRENCY` of `commons.py` (line 10). -/
def BASE_CURRENCY : String := "EUR"

/-- One row of the flat base-rate table handed from the extraction step
to the transformation step (columns `exchange_date`, `base_currency`,
`quote_currency`, `rate`). -/
structure BaseRateRecord where
  exchange_date : String
  base_currency : String
  quote_currency : String
  rate : ℚ
deriving DecidableEq

/-- A cell of the pivoted per-date rate table.  `nan` is the value a
pandas pivot puts into a (date, currency) combination that has no input
record; `val q` is an actual rate. -/
inductive Cell where
  | nan : Cell
  | val : ℚ → Cell
deriving DecidableEq

instance : Inhabited Cell := ⟨Cell.nan⟩

/-- The Python comparison `cell == 0` (float semantics: `NaN == 0` is false). -/
def Cell.eqZero : Cell → Bool
  | Cell.nan => false
  | Cell.val x => decide (x = 0)

/-- The Python comparison `cell != 0` (float semantics: `NaN != 0` is true). -/
def Cell.neZero : Cell → Bool
  | Cell.nan => true
  | Cell.val x => decide (x ≠ 0)

/-- Division of cells, numerator first; any NaN operand propagates, as
in float arithmetic.  The code only divides after its own zero guards,
so the rational division never sees a zero denominator. -/
def Cell.div : Cell → Cell → Cell
  | Cell.val a, Cell.val b => Cell.val (a / b)
  | _, _ => Cell.nan

/-- One row of the final fact table built by `transform_to_fact_table`
(lines 165-173 of `commons.py`).  `load_timestamp` is the wall-clock
string `datetime.now()...`; the embedding passes it in as a parameter. -/
structure CrossRateRecord where
  exchange_date : String
  base_currency : String
  quote_currency : String
  rate : Cell
  rate_inverse : Cell
  data_source : String
  load_timestamp : String
deriving DecidableEq

instance : Inhabited CrossRateRecord :=
  ⟨{ exchange_date := "", base_currency := "", quote_currency := "",
     rate := Cell.nan, rate_inverse := Cell.nan, data_source := "", load_timestamp := "" }⟩

/-- The exceptions `transform_to_fact_table` can raise:
`duplicatePivotEntries` is the ValueError pandas `pivot` raises when two
records share an (exchange_date, quote_currency) key (line 127);
`missingBaseCurrency` is the explicit ValueError of line 135; and
`keyError c` is the KeyError raised by `row[c]` (lines 150-151) when
currency `c` is not a column of the pivoted frame. -/
inductive TransformError where
  | duplicatePivotEntries : TransformError
  | missingBaseCurrency : TransformError
  | keyError : String → TransformError
deriving DecidableEq

/-- The (exchange_date, quote_currency) key of each record; pandas
`pivot` demands these be pairwise distinct. -/
def pivotKeys (recs : List BaseRateRecord) : List (String × String) :=
  recs.map (fun r => (r.exchange_date, r.quote_currency))

/-- Distinct elements of a list, keeping the first occurrence of each. -/
def firstDedupAux (seen : List String) : List String → List String
  | [] => []
  | x :: xs => if x ∈ seen then firstDedupAux seen xs else x :: firstDedupAux (x :: seen) xs

/-- Distinct elements of a list of strings, in first-occurrence order. -/
def firstDedup (l : List String) : List String := firstDedupAux [] l

/-- The columns of the pivoted frame: the distinct quote currencies
appearing anywhere in the input.  (pandas also orders the columns, but
only membership is ever observed by the code.) -/
def pivotColumns (recs : List BaseRateRecord) : List String :=
  firstDedup (recs.map (fun r => r.quote_currency))

/-- The index of the pivoted frame: the distinct exchange dates of the
input.  (pandas sorts the index lexicographically; the embedding keeps
first-occurrence order, which no stated property distinguishes — only
the set of dates and their count are ever observed.) -/
def pivotDates (recs : List BaseRateRecord) : List String :=
  firstDedup (recs.map (fun r => r.exchange_date))

/-- The pivoted cell for (date `d`, currency `c`): the rate of the input
record with that key, or NaN when no such record exists (how pandas
fills a missing cell).  Under the pivot's no-duplicate-keys guard the
matching record is unique, so taking the first match is exact. -/
def pivotCell (recs : List BaseRateRecord) (d c : String) : Cell :=
  match recs.find? (fun r => r.exchange_date == d && r.quote_currency == c) with
  | some r => Cell.val r.rate
  | none => Cell.nan

/-- All ordered currency pairs, `itertools.product` order (line 141). -/
def currencyPairs (u : List String) : List (String × String) :=
  u.flatMap (fun a => u.map (fun b => (a, b)))

/-- The body of the inner loop of `transform_to_fact_table`
(lines 147-173): given the two cells of a pair, apply the zero guard,
the cross-rate formula and the inverse-rate guard, and attach metadata. -/
def crossRow (now d b q : String) (cb cq : Cell) : CrossRateRecord :=
  let rate := if cb.eqZero then Cell.val 0 else Cell.div cq cb
  let rate_inverse := if rate.neZero then Cell.div (Cell.val 1) rate else Cell.val 0
  { exchange_date := d, base_currency := b, quote_currency := q,
    rate := rate, rate_inverse := rate_inverse,
    data_source := "ECB", load_timestamp := now }

/-- One iteration of the pair loop: look up `row[base]` then
`row[quote]` (each a KeyError when the currency is not a pivot column),
then build the row. -/
def pairRow (cols : List String) (recs : List BaseRateRecord) (now d : String)
    (p : String × String) : Except TransformError CrossRateRecord :=
  if p.1 ∈ cols then
    if p.2 ∈ cols then
      Except.ok (crossRow now d p.1 p.2 (pivotCell recs d p.1) (pivotCell recs d p.2))
    else Except.error (TransformError.keyError p.2)
  else Except.error (TransformError.keyError p.1)

/-- Left-to-right effectful map: the first exception aborts the loop,
exactly as a raised Python exception aborts the enclosing `for`. -/
def exceptMap {α ε β : Type} (f : α → Except ε β) : List α → Except ε (List β)
  | [] => Except.ok []
  | x :: xs =>
    match f x with
    | Except.error e => Except.error e
    | Except.ok y =>
      match exceptMap f xs with
      | Except.error e => Except.error e
      | Except.ok ys => Except.ok (y :: ys)

/-- The transformation of `transform_to_fact_table` (lines 108-184) with
the module-global currency universe made an explicit parameter `univ`
(the Python reads the global `TARGET_CURRENCIES` at call time) and the
wall-clock timestamp passed in as `now`.  Steps, in source order: empty
input short-circuits to an empty table; the pivot rejects duplicate
(date, currency) keys; the base currency must be a pivot column; then
one row per (date, ordered pair), the per-pair column lookups raising a
KeyError for a currency that is no column. -/
def transformCore (univ : List String) (now : String) (recs : List BaseRateRecord) :
    Except TransformError (List CrossRateRecord) :=
  if recs.isEmpty then Except.ok []
  else if (pivotKeys recs).Nodup then
    if BASE_CURRENCY ∈ pivotColumns recs then
      match exceptMap
          (fun d => exceptMap (pairRow (pivotColumns recs) recs now d) (currencyPairs univ))
          (pivotDates recs) with
      | Except.error e => Except.error e
      | Except.ok rows => Except.ok rows.flatten
    else Except.error TransformError.missingBaseCurrency
  else Except.error TransformError.duplicatePivotEntries

/-- `transform_to_fact_table` as shipped: the core at the configured
seven-currency universe. -/
def transform_to_fact_table (now : String) (recs : List BaseRateRecord) :
    Except TransformError (List CrossRateRecord) :=
  transformCore TARGET_CURRENCIES now recs

/-- One series of the parsed SDMX-JSON response body.  `attributes` is
the series' attribute index list (the code reads `attributes[-4]`, the
fourth-from-last entry, as an index into the currency-code table);
`observations` is the per-series observation map, each entry carrying
the parsed leading time index of its key and the leading numeric value
`observation_value[0]`. -/
structure SeriesInfo where
  attributes : List Nat
  observations : List (Nat × ℚ)
deriving DecidableEq

/-- The parts of the parsed response that `fetch_ecb_data_for_ytd`
reads: `dataSets[0].series` (in dict insertion order), the currency
code table `structure.dimensions.series[1].values[..].id`, and the date
table `structure.dimensions.observation[0].values[..].id`. -/
structure EcbResponse where
  series : List SeriesInfo
  seriesCurrencyValues : List String
  observationDateValues : List String
deriving DecidableEq

/-- The single failure mode of the response-processing stage: any
KeyError/IndexError/ValueError during the walk is caught by the
handler of lines 102-105 and turned into one error return. -/
inductive FetchError where
  | malformed : FetchError
deriving DecidableEq

/-- Resolution of a series' quote currency (line 64):
`values[attributes[-4]].id`, failing when the attribute list has fewer
than four entries or the resolved index is out of range. -/
def seriesQuoteCurrency (resp : EcbResponse) (s : SeriesInfo) : Option String :=
  match s.attributes.reverse.get? 3 with
  | none => none
  | some i => resp.seriesCurrencyValues.get? i

/-- One observation turned into a record (lines 67-82): resolve the
date table at the observation's time index and emit the record. -/
def normalizeObs (resp : EcbResponse) (q : String) (ob : Nat × ℚ) :
    Except FetchError BaseRateRecord :=
  match resp.observationDateValues.get? ob.1 with
  | none => Except.error FetchError.malformed
  | some d =>
    Except.ok { exchange_date := d, base_currency := BASE_CURRENCY,
                quote_currency := q, rate := ob.2 }

/-- One series flattened into records (lines 61-82). -/
def normalizeSeries (resp : EcbResponse) (s : SeriesInfo) :
    Except FetchError (List BaseRateRecord) :=
  match seriesQuoteCurrency resp s with
  | none => Except.error FetchError.malformed
  | some q => exceptMap (normalizeObs resp q) s.observations

/-- The whole flattening loop: all series' records, in series order then
observation order, any resolution failure aborting the walk. -/
def normalizeAll (resp : EcbResponse) : Except FetchError (List BaseRateRecord) :=
  match exceptMap (normalizeSeries resp) resp.series with
  | Except.error e => Except.error e
  | Except.ok ls => Except.ok ls.flatten

/-- The synthesized identity record of lines 86-92: `quote_currency`
equal to the base currency and rate 1.0 for a given date. -/
def identityRecord (d : String) : BaseRateRecord :=
  { exchange_date := d, base_currency := BASE_CURRENCY,
    quote_currency := BASE_CURRENCY, rate := 1 }

/-- The response-processing portion of `fetch_ecb_data_for_ytd`
(lines 54-100): flatten the response, then append one identity record
per distinct date seen.  (The Python collects the dates into a set whose
iteration order is unspecified; the embedding uses first-occurrence
order, which no stated property distinguishes.)  The HTTP transport of
lines 44-51 is an external collaborator and not part of the model. -/
def fetch_ecb_data_for_ytd (resp : EcbResponse) : Except FetchError (List BaseRateRecord) :=
  match normalizeAll resp with
  | Except.error e => Except.error e
  | Except.ok fetched =>
    Except.ok (fetched ++
      (firstDedup (fetched.map (fun r => r.exchange_date))).map identityRecord)

/-- A complete single-date input: every currency of the universe quoted
on 2024-01-02 (11.5 = 23/2, 4.3 = 43/10, 7.5 = 15/2 as rationals). -/
def sampleComplete : List BaseRateRecord :=
  [ ⟨"2024-01-02", "EUR", "NOK", 12⟩,
    ⟨"2024-01-02", "EUR", "EUR", 1⟩,
    ⟨"2024-01-02", "EUR", "SEK", 11⟩,
    ⟨"2024-01-02", "EUR", "PLN", 4⟩,
    ⟨"2024-01-02", "EUR", "RON", 5⟩,
    ⟨"2024-01-02", "EUR", "DKK", 8⟩,
    ⟨"2024-01-02", "EUR", "CZK", 25⟩ ]

/-- The complete single-date input with the SEK rate replaced by 0. -/
def sampleZeroSEK : List BaseRateRecord :=
  [ ⟨"2024-01-02", "EUR", "NOK", 12⟩,
    ⟨"2024-01-02", "EUR", "EUR", 1⟩,
    ⟨"2024-01-02", "EUR", "SEK", 0⟩,
    ⟨"2024-01-02", "EUR", "PLN", 4⟩,
    ⟨"2024-01-02", "EUR", "RON", 5⟩,
    ⟨"2024-01-02", "EUR", "DKK", 8⟩,
    ⟨"2024-01-02", "EUR", "CZK", 25⟩ ]

/-- Two dates; SEK is quoted on the first date but has no record at all
on the second, so the second date's pivoted SEK cell is NaN. -/
def sampleMissingSEK : List BaseRateRecord :=
  [ ⟨"2024-01-02", "EUR", "NOK", 12⟩,
    ⟨"2024-01-02", "EUR", "EUR", 1⟩,
    ⟨"2024-01-02", "EUR", "SEK", 11⟩,
    ⟨"2024-01-02", "EUR", "PLN", 4⟩,
    ⟨"2024-01-02", "EUR", "RON", 5⟩,
    ⟨"2024-01-02", "EUR", "DKK", 8⟩,
    ⟨"2024-01-02", "EUR", "CZK", 25⟩,
    ⟨"2024-01-03", "EUR", "NOK", 13⟩,
    ⟨"2024-01-03", "EUR", "EUR", 1⟩,
    ⟨"2024-01-03", "EUR", "PLN", 4⟩,
    ⟨"2024-01-03", "EUR", "RON", 5⟩,
    ⟨"2024-01-03", "EUR", "DKK", 8⟩,
    ⟨"2024-01-03", "EUR", "CZK", 24⟩ ]

/-- Two dates; EUR is quoted on the first date but has no record at all
on the second, so the second date's pivoted EUR cell is NaN. -/
def sampleMissingEUR : List BaseRateRecord :=
  [ ⟨"2024-01-02", "EUR", "NOK", 12⟩,
    ⟨"2024-01-02", "EUR", "EUR", 1⟩,
    ⟨"2024-01-02", "EUR", "SEK", 11⟩,
    ⟨"2024-01-02", "EUR", "PLN", 4⟩,
    ⟨"2024-01-02", "EUR", "RON", 5⟩,
    ⟨"2024-01-02", "EUR", "DKK", 8⟩,
    ⟨"2024-01-02", "EUR", "CZK", 25⟩,
    ⟨"2024-01-03", "EUR", "NOK", 13⟩,
    ⟨"2024-01-03", "EUR", "SEK", 11⟩,
    ⟨"2024-01-03", "EUR", "PLN", 4⟩,
    ⟨"2024-01-03", "EUR", "RON", 5⟩,
    ⟨"2024-01-03", "EUR", "DKK", 8⟩,
    ⟨"2024-01-03", "EUR", "CZK", 24⟩ ]

/-- A single date on which SEK has no record (the other six universe
currencies are quoted), so SEK is not a pivot column at all. -/
def sampleOneDateNoSEK : List BaseRateRecord :=
  [ ⟨"2024-01-02", "EUR", "NOK", 12⟩,
    ⟨"2024-01-02", "EUR", "EUR", 1⟩,
    ⟨"2024-01-02", "EUR", "PLN", 4⟩,
    ⟨"2024-01-02", "EUR", "RON", 5⟩,
    ⟨"2024-01-02", "EUR", "DKK", 8⟩,
    ⟨"2024-01-02", "EUR", "CZK", 25⟩ ]

/-- An input in which EUR appears as quote currency of no record at all. -/
def sampleNoEUR : List BaseRateRecord :=
  [ ⟨"2024-01-02", "EUR", "NOK", 12⟩,
    ⟨"2024-01-02", "EUR", "SEK", 11⟩ ]

/-- An input with two records sharing the (date, quote currency) key. -/
def sampleDup : List BaseRateRecord :=
  [ ⟨"2024-01-02", "EUR", "NOK", 12⟩,
    ⟨"2024-01-02", "EUR", "NOK", 13⟩,
    ⟨"2024-01-02", "EUR", "EUR", 1⟩,
    ⟨"2024-01-02", "EUR", "SEK", 11⟩,
    ⟨"2024-01-02", "EUR", "PLN", 4⟩,
    ⟨"2024-01-02", "EUR", "RON", 5⟩,
    ⟨"2024-01-02", "EUR", "DKK", 8⟩,
    ⟨"2024-01-02", "EUR", "CZK", 25⟩ ]

/-- The three-currency universe of the spec's worked scenario. -/
def scenarioUniverse : List String := ["EUR", "NOK", "SEK"]

/-- The worked scenario's input: date 2024-01-02 with EUR/EUR at 1.0,
EUR/NOK at 11.5 and EUR/SEK at 11.0. -/
def scenarioRecords : List BaseRateRecord :=
  [ ⟨"2024-01-02", "EUR", "EUR", 1⟩,
    ⟨"2024-01-02", "EUR", "NOK", 23/2⟩,
    ⟨"2024-01-02", "EUR", "SEK", 11⟩ ]

/-- The fact table of the complete single-date sample. -/
def tableComplete : List CrossRateRecord :=
  (transform_to_fact_table "ts" sampleComplete).toOption.getD []

/-- The fact table of the zero-SEK sample. -/
def tableZeroSEK : List CrossRateRecord :=
  (transform_to_fact_table "ts" sampleZeroSEK).toOption.getD []

/-- The fact table of the worked three-currency scenario. -/
def tableScenario : List CrossRateRecord :=
  (transformCore scenarioUniverse "ts" scenarioRecords).toOption.getD []

/-- The (SEK, SEK) row of the zero-SEK sample's fact table. -/
def rowZeroSEKSEK : CrossRateRecord :=
  (tableZeroSEK.filter
    (fun r => r.base_currency == "SEK" && r.quote_currency == "SEK")).getD 0 default

/-- The (NOK, SEK) row of the complete sample's fact table. -/
def rowNOKSEK : CrossRateRecord :=
  (tableComplete.filter
    (fun r => r.base_currency == "NOK" && r.quote_currency == "SEK")).getD 0 default

/-- The (SEK, NOK) row of the complete sample's fact table. -/
def rowSEKNOK : CrossRateRecord :=
  (tableComplete.filter
    (fun r => r.base_currency == "SEK" && r.quote_currency == "NOK")).getD 0 default

/-- The fact table of the two-date sample with SEK absent from the
second date. -/
def tableMissingSEK : List CrossRateRecord :=
  (transform_to_fact_table "ts" sampleMissingSEK).toOption.getD []

/-- The fact table of the two-date sample with EUR absent from the
second date. -/
def tableMissingEUR : List CrossRateRecord :=
  (transform_to_fact_table "ts" sampleMissingEUR).toOption.getD []

/-- The (NOK, NOK) row of the complete sample's fact table. -/
def rowNOKNOK : CrossRateRecord :=
  (tableComplete.filter
    (fun r => r.base_currency == "NOK" && r.quote_currency == "NOK")).getD 0 default

/-- A two-series response whose attribute indices resolve to NOK and
SEK, each with one observation on 2024-01-02. -/
def sampleResp : EcbResponse :=
  { series := [⟨[0, 0, 0, 0], [(0, 12)]⟩, ⟨[1, 0, 0, 0], [(0, 11)]⟩],
    seriesCurrencyValues := ["NOK", "SEK"],
    observationDateValues := ["2024-01-02"] }

/-- The flattened records of `sampleResp`. -/
def sampleFetched : List BaseRateRecord :=
  [ ⟨"2024-01-02", "EUR", "NOK", 12⟩,
    ⟨"2024-01-02", "EUR", "SEK", 11⟩ ]

/-- A response whose single series resolves to the base currency EUR
itself, at rate 1.0 — a shape the parser accepts. -/
def sampleRespEUR : EcbResponse :=
  { series := [⟨[0, 0, 0, 0], [(0, 1)]⟩],
    seriesCurrencyValues := ["EUR"],
    observationDateValues := ["2024-01-02"] }

/-- A record is an identity record for date `d` when it carries that
date, the base currency as quote currency and rate 1.0. -/
def isIdentityFor (d : String) (rec : BaseRateRecord) : Bool :=
  decide (rec.exchange_date = d ∧ rec.quote_currency = BASE_CURRENCY ∧ rec.rate = 1)

/-- Membership in the deduplication walk: an element appears in the
output exactly when it appears in the remaining input and is not
already among the seen elements. -/
theorem mem_firstDedupAux (c : String) (l : List String) (seen : List String) :
    c ∈ firstDedupAux seen l ↔ c ∈ l ∧ c ∉ seen := by
  induction l generalizing seen with
  | nil => simp [firstDedupAux]
  | cons x xs ih =>
    rw [firstDedupAux]
    by_cases hx : x ∈ seen
    · rw [if_pos hx, ih seen]
      constructor
      · rintro ⟨h1, h2⟩
        exact ⟨List.mem_cons_of_mem _ h1, h2⟩
      · rintro ⟨h1, h2⟩
        rcases List.mem_cons.mp h1 with rfl | h
        · exact absurd hx h2
        · exact ⟨h, h2⟩
    · rw [if_neg hx]
      constructor
      · intro h
        rcases List.mem_cons.mp h with rfl | h
        · exact ⟨List.mem_cons_self _ _, hx⟩
        · rcases (ih (x :: seen)).mp h with ⟨h1, h2⟩
          exact ⟨List.mem_cons_of_mem _ h1, fun hc => h2 (List.mem_cons_of_mem _ hc)⟩
      · rintro ⟨h1, h2⟩
        rcases List.mem_cons.mp h1 with rfl | h
        · exact List.mem_cons_self _ _
        · by_cases hcx : c = x
          · subst hcx; exact List.mem_cons_self _ _
          · exact List.mem_cons_of_mem _ ((ih (x :: seen)).mpr
              ⟨h, fun hc => (List.mem_cons.mp hc).elim hcx h2⟩)

/-- Deduplication preserves membership. -/
theorem mem_firstDedup (c : String) (l : List String) : c ∈ firstDedup l ↔ c ∈ l := by
  rw [firstDedup, mem_firstDedupAux]
  simp

/-- The deduplication walk never repeats an element. -/
theorem nodup_firstDedupAux (l : List String) (seen : List String) :
    (firstDedupAux seen l).Nodup := by
  induction l generalizing seen with
  | nil => simp [firstDedupAux]
  | cons x xs ih =>
    rw [firstDedupAux]
    by_cases hx : x ∈ seen
    · rw [if_pos hx]; exact ih seen
    · rw [if_neg hx]
      refine List.nodup_cons.mpr ⟨fun hc => ?_, ih (x :: seen)⟩
      exact ((mem_firstDedupAux x xs (x :: seen)).mp hc).2 (List.mem_cons_self x seen)

/-- The deduplicated list has no repeats. -/
theorem nodup_firstDedup (l : List String) : (firstDedup l).Nodup :=
  nodup_firstDedupAux l []

/-- A nonempty input pivots to a nonempty date index. -/
theorem pivotDates_ne_nil (recs : List BaseRateRecord) (h : recs ≠ []) :
    pivotDates recs ≠ [] := by
  cases recs with
  | nil => exact absurd rfl h
  | cons r rs => simp [pivotDates, firstDedup, firstDedupAux]

/-- The quote currency of any input record is a pivot column. -/
theorem quote_mem_pivotColumns {recs : List BaseRateRecord} {rec : BaseRateRecord}
    (h : rec ∈ recs) : rec.quote_currency ∈ pivotColumns recs := by
  rw [pivotColumns, mem_firstDedup]
  exact List.mem_map_of_mem _ h

/-- A pair lies in the ordered-pair enumeration exactly when both of
its components lie in the universe. -/
theorem mem_currencyPairs {p : String × String} {u : List String} :
    p ∈ currencyPairs u ↔ p.1 ∈ u ∧ p.2 ∈ u := by
  rw [currencyPairs]
  simp only [List.mem_flatMap, List.mem_map]
  constructor
  · rintro ⟨a, ha, b, hb, rfl⟩; exact ⟨ha, hb⟩
  · rintro ⟨h1, h2⟩; exact ⟨p.1, h1, p.2, h2, rfl⟩

/-- Inversion of a successful loop step. -/
theorem exceptMap_cons_ok {α ε β : Type} {f : α → Except ε β} {x : α} {xs : List α}
    {ys : List β} (h : exceptMap f (x :: xs) = Except.ok ys) :
    ∃ y ys', f x = Except.ok y ∧ exceptMap f xs = Except.ok ys' ∧ ys = y :: ys' := by
  rw [exceptMap] at h
  cases hfx : f x with
  | error e => rw [hfx] at h; simp at h
  | ok y =>
    rw [hfx] at h
    cases hEx : exceptMap f xs with
    | error e => rw [hEx] at h; simp at h
    | ok ys' =>
      rw [hEx] at h
      simp only [Except.ok.injEq] at h
      exact ⟨y, ys', rfl, rfl, h.symm⟩

/-- Inversion of a failing loop step: either the head fails, or the
head succeeds and the rest of the loop fails. -/
theorem exceptMap_cons_error {α ε β : Type} {f : α → Except ε β} {x : α} {xs : List α}
    {e : ε} (h : exceptMap f (x :: xs) = Except.error e) :
    f x = Except.error e ∨ (∃ y, f x = Except.ok y ∧ exceptMap f xs = Except.error e) := by
  rw [exceptMap] at h
  cases hfx : f x with
  | error e' =>
    rw [hfx] at h
    simp only [Except.error.injEq] at h
    exact Or.inl (congrArg Except.error h)
  | ok y =>
    rw [hfx] at h
    cases hEx : exceptMap f xs with
    | error e' =>
      rw [hEx] at h
      simp only [Except.error.injEq] at h
      exact Or.inr ⟨y, rfl, congrArg Except.error h⟩
    | ok ys' => rw [hEx] at h; simp at h

/-- Every element of a successful loop's output comes from some input
element on which the body succeeded. -/
theorem exceptMap_ok_mem {α ε β : Type} (f : α → Except ε β) (l : List α) (ys : List β)
    (h : exceptMap f l = Except.ok ys) (y : β) (hy : y ∈ ys) :
    ∃ x ∈ l, f x = Except.ok y := by
  induction l generalizing ys with
  | nil =>
    rw [exceptMap] at h
    simp only [Except.ok.injEq] at h
    subst h
    cases hy
  | cons x xs ih =>
    obtain ⟨y', ys', h1, h2, rfl⟩ := exceptMap_cons_ok h
    rcases List.mem_cons.mp hy with rfl | hy'
    · exact ⟨x, List.mem_cons_self _ _, h1⟩
    · obtain ⟨x', hx', hres⟩ := ih ys' h2 hy'
      exact ⟨x', List.mem_cons_of_mem _ hx', hres⟩

/-- A successful loop means the body succeeded on every input element. -/
theorem exceptMap_ok_all {α ε β : Type} (f : α → Except ε β) (l : List α) (ys : List β)
    (h : exceptMap f l = Except.ok ys) (x : α) (hx : x ∈ l) :
    ∃ y, f x = Except.ok y := by
  induction l generalizing ys with
  | nil => cases hx
  | cons z zs ih =>
    obtain ⟨y', ys', h1, h2, rfl⟩ := exceptMap_cons_ok h
    rcases List.mem_cons.mp hx with rfl | hx'
    · exact ⟨y', h1⟩
    · exact ih ys' h2 hx'

/-- A failing loop means the body failed, with the same exception, on
some input element. -/
theorem exceptMap_error_mem {α ε β : Type} (f : α → Except ε β) (l : List α) (e : ε)
    (h : exceptMap f l = Except.error e) : ∃ x ∈ l, f x = Except.error e := by
  induction l with
  | nil => rw [exceptMap] at h; simp at h
  | cons x xs ih =>
    rcases exceptMap_cons_error h with h1 | ⟨y, _, h2⟩
    · exact ⟨x, List.mem_cons_self _ _, h1⟩
    · obtain ⟨x', hx', hres⟩ := ih h2
      exact ⟨x', List.mem_cons_of_mem _ hx', hres⟩

/-- A loop whose body succeeds everywhere succeeds, with one output per
input element. -/
theorem exceptMap_ok_of_all {α ε β : Type} (f : α → Except ε β) (l : List α)
    (h : ∀ x ∈ l, ∃ y, f x = Except.ok y) :
    ∃ ys, exceptMap f l = Except.ok ys ∧ ys.length = l.length := by
  induction l with
  | nil => exact ⟨[], rfl, rfl⟩
  | cons x xs ih =>
    obtain ⟨y, hy⟩ := h x (List.mem_cons_self _ _)
    obtain ⟨ys, hys, hlen⟩ := ih (fun z hz => h z (List.mem_cons_of_mem _ hz))
    refine ⟨y :: ys, ?_, by simp [hlen]⟩
    rw [exceptMap, hy, hys]

/-- A loop whose body always yields a block of `k` elements yields a
flattened output of length (number of inputs) times `k`. -/
theorem exceptMap_flatten_length {α ε β : Type} (f : α → Except ε (List β)) (l : List α)
    (k : ℕ) (h : ∀ x ∈ l, ∃ ys, f x = Except.ok ys ∧ ys.length = k) :
    ∃ L, exceptMap f l = Except.ok L ∧ L.flatten.length = l.length * k := by
  induction l with
  | nil => exact ⟨[], rfl, by simp⟩
  | cons x xs ih =>
    obtain ⟨ys, hy, hyk⟩ := h x (List.mem_cons_self _ _)
    obtain ⟨L, hL, hLlen⟩ := ih (fun z hz => h z (List.mem_cons_of_mem _ hz))
    refine ⟨ys :: L, ?_, ?_⟩
    · rw [exceptMap, hy, hL]
    · simp [hyk, hLlen, Nat.succ_mul, Nat.add_comm]

/-- The date field a cross-rate row is built with. -/
theorem crossRow_exchange_date (now d b q : String) (cb cq : Cell) :
    (crossRow now d b q cb cq).exchange_date = d := rfl

/-- The first-leg field a cross-rate row is built with. -/
theorem crossRow_base_currency (now d b q : String) (cb cq : Cell) :
    (crossRow now d b q cb cq).base_currency = b := rfl

/-- The second-leg field a cross-rate row is built with. -/
theorem crossRow_quote_currency (now d b q : String) (cb cq : Cell) :
    (crossRow now d b q cb cq).quote_currency = q := rfl

/-- The rate field of a cross-rate row: the zero guard, then the
cross-rate division. -/
theorem crossRow_rate (now d b q : String) (cb cq : Cell) :
    (crossRow now d b q cb cq).rate =
      if cb.eqZero then Cell.val 0 else Cell.div cq cb := rfl

/-- The inverse-rate field of a cross-rate row: the reciprocal of a
nonzero rate, else zero. -/
theorem crossRow_rate_inverse (now d b q : String) (cb cq : Cell) :
    (crossRow now d b q cb cq).rate_inverse =
      if (if cb.eqZero then Cell.val 0 else Cell.div cq cb).neZero then
        Cell.div (Cell.val 1) (if cb.eqZero then Cell.val 0 else Cell.div cq cb)
      else Cell.val 0 := rfl

/-- Inversion of a successful pair-loop iteration: both currencies are
pivot columns and the row is the one built from their cells. -/
theorem pairRow_ok {cols : List String} {recs : List BaseRateRecord} {now d : String}
    {p : String × String} {r : CrossRateRecord}
    (h : pairRow cols recs now d p = Except.ok r) :
    p.1 ∈ cols ∧ p.2 ∈ cols ∧
      r = crossRow now d p.1 p.2 (pivotCell recs d p.1) (pivotCell recs d p.2) := by
  rw [pairRow] at h
  by_cases h1 : p.1 ∈ cols
  · rw [if_pos h1] at h
    by_cases h2 : p.2 ∈ cols
    · rw [if_pos h2] at h
      simp only [Except.ok.injEq] at h
      exact ⟨h1, h2, h.symm⟩
    · rw [if_neg h2] at h; simp at h
  · rw [if_neg h1] at h; simp at h

/-- Inversion of a failing pair-loop iteration: the exception is a
KeyError naming one of the pair's currencies, and that currency is not
a pivot column. -/
theorem pairRow_error {cols : List String} {recs : List BaseRateRecord} {now d : String}
    {p : String × String} {e : TransformError}
    (h : pairRow cols recs now d p = Except.error e) :
    ∃ c, e = TransformError.keyError c ∧ c ∉ cols ∧ (c = p.1 ∨ c = p.2) := by
  rw [pairRow] at h
  by_cases h1 : p.1 ∈ cols
  · rw [if_pos h1] at h
    by_cases h2 : p.2 ∈ cols
    · rw [if_pos h2] at h; simp at h
    · rw [if_neg h2] at h
      simp only [Except.error.injEq] at h
      exact ⟨p.2, h.symm, h2, Or.inr rfl⟩
  · rw [if_neg h1] at h
    simp only [Except.error.injEq] at h
    exact ⟨p.1, h.symm, h1, Or.inl rfl⟩

/-- The branch of `transform_to_fact_table` taken for a nonempty,
duplicate-free input whose pivoted frame has a base-currency column:
the nested row loop. -/
theorem transformCore_loop (univ : List String) (now : String) (recs : List BaseRateRecord)
    (hne : recs ≠ []) (hnd : (pivotKeys recs).Nodup)
    (hEUR : BASE_CURRENCY ∈ pivotColumns recs) :
    transformCore univ now recs =
      match exceptMap
          (fun d => exceptMap (pairRow (pivotColumns recs) recs now d) (currencyPairs univ))
          (pivotDates recs) with
      | Except.error e => Except.error e
      | Except.ok rows => Except.ok rows.flatten := by
  rw [transformCore]
  rw [if_neg (by simp [List.isEmpty_iff, hne]), if_pos hnd, if_pos hEUR]

/-- The branch of `transform_to_fact_table` taken when two records of a
nonempty input share a pivot key. -/
theorem transformCore_dup (univ : List String) (now : String) (recs : List BaseRateRecord)
    (hne : recs ≠ []) (hdup : ¬ (pivotKeys recs).Nodup) :
    transformCore univ now recs = Except.error TransformError.duplicatePivotEntries := by
  rw [transformCore]
  rw [if_neg (by simp [List.isEmpty_iff, hne]), if_neg hdup]

/-- The branch of `transform_to_fact_table` taken when the base
currency is a column of no date: the explicit ValueError of line 135. -/
theorem transformCore_noBase (univ : List String) (now : String) (recs : List BaseRateRecord)
    (hne : recs ≠ []) (hnd : (pivotKeys recs).Nodup)
    (hEUR : BASE_CURRENCY ∉ pivotColumns recs) :
    transformCore univ now recs = Except.error TransformError.missingBaseCurrency := by
  rw [transformCore]
  rw [if_neg (by simp [List.isEmpty_iff, hne]), if_pos hnd, if_neg hEUR]

/-- Every row of a successful transformation comes from a date of the
pivot index and an ordered pair of the universe, and equals the row the
loop body builds from that date's two pivot cells. -/
theorem transformCore_ok_mem (univ : List String) (now : String) (recs : List BaseRateRecord)
    (l : List CrossRateRecord) (r : CrossRateRecord)
    (h : transformCore univ now recs = Except.ok l) (hr : r ∈ l) :
    r.exchange_date ∈ pivotDates recs ∧ r.base_currency ∈ univ ∧ r.quote_currency ∈ univ ∧
      r = crossRow now r.exchange_date r.base_currency r.quote_currency
        (pivotCell recs r.exchange_date r.base_currency)
        (pivotCell recs r.exchange_date r.quote_currency) := by
  by_cases hne : recs = []
  · subst hne
    rw [transformCore] at h
    simp only [List.isEmpty_nil, if_true, Except.ok.injEq] at h
    subst h
    cases hr
  · by_cases hnd : (pivotKeys recs).Nodup
    · by_cases hEUR : BASE_CURRENCY ∈ pivotColumns recs
      · rw [transformCore_loop univ now recs hne hnd hEUR] at h
        cases hOuter : exceptMap
            (fun d => exceptMap (pairRow (pivotColumns recs) recs now d) (currencyPairs univ))
            (pivotDates recs) with
        | error e => rw [hOuter] at h; simp at h
        | ok rows =>
          rw [hOuter] at h
          simp only [Except.ok.injEq] at h
          subst h
          obtain ⟨inner, hinner, hrin⟩ := List.mem_flatten.mp hr
          obtain ⟨d, hd, hinner_eq⟩ := exceptMap_ok_mem _ _ _ hOuter inner hinner
          obtain ⟨p, hp, hpr⟩ := exceptMap_ok_mem _ _ _ hinner_eq r hrin
          obtain ⟨h1, h2, hre⟩ := pairRow_ok hpr
          obtain ⟨hu1, hu2⟩ := mem_currencyPairs.mp hp
          subst hre
          exact ⟨hd, hu1, hu2, rfl⟩
      · rw [transformCore_noBase univ now recs hne hnd hEUR] at h; simp at h
    · rw [transformCore_dup univ now recs hne hnd] at h; simp at h

/-- Counting an element in a list without repeats: one hit when present. -/
theorem countP_eq_one_of_nodup_mem (dates : List String) (d : String)
    (hnd : dates.Nodup) (hd : d ∈ dates) :
    dates.countP (fun x => decide (x = d)) = 1 := by
  induction dates with
  | nil => cases hd
  | cons x xs ih =>
    rw [List.countP_cons]
    rcases List.mem_cons.mp hd with rfl | hd'
    · have hx : d ∉ xs := (List.nodup_cons.mp hnd).1
      have h0 : xs.countP (fun y => decide (y = d)) = 0 :=
        List.countP_eq_zero.mpr (fun y hy => by
          simp only [decide_eq_true_eq]
          rintro rfl
          exact hx hy)
      simp [h0]
    · have hnx : ¬ (x = d) := by
        rintro rfl
        exact (List.nodup_cons.mp hnd).1 hd'
      rw [ih (List.nodup_cons.mp hnd).2 hd']
      simp [hnx]

/-- C6 (confirmed): called on the empty record sequence,
`transform_to_fact_table` returns the empty sequence and raises no
error, whatever the timestamp. -/
theorem claim_C6_empty_input (now : String) :
    transform_to_fact_table now [] = Except.ok [] := rfl

/-- C10 (confirmed): an input containing two or more records with the
same (exchange_date, quote_currency) combination makes
`transform_to_fact_table` raise at the pivot step (the pandas reshape
ValueError) instead of choosing one duplicate or emitting rows. -/
theorem claim_C10_duplicate_keys (now : String) (recs : List BaseRateRecord)
    (hdup : ¬ (pivotKeys recs).Nodup) :
    transform_to_fact_table now recs = Except.error TransformError.duplicatePivotEntries := by
  have hne : recs ≠ [] := by
    rintro rfl
    exact hdup (by simp [pivotKeys])
  rw [transform_to_fact_table]
  exact transformCore_dup _ now recs hne hdup

/-- C10 witness: the duplicate-key sample fails at the pivot step. -/
theorem claim_C10_witness :
    transform_to_fact_table "ts" sampleDup = Except.error TransformError.duplicatePivotEntries :=
  claim_C10_duplicate_keys "ts" sampleDup (by decide)

/-- C7 (amended): the MissingBaseCurrency ValueError is raised exactly
when EUR appears as quote currency of no input record at all — the code
checks the pivoted frame's columns, which cover every date at once. -/
theorem claim_C7_amended (now : String) (recs : List BaseRateRecord)
    (hne : recs ≠ []) (hnd : (pivotKeys recs).Nodup)
    (hEUR : BASE_CURRENCY ∉ pivotColumns recs) :
    transform_to_fact_table now recs = Except.error TransformError.missingBaseCurrency := by
  rw [transform_to_fact_table]
  exact transformCore_noBase _ now recs hne hnd hEUR

/-- C7 witness: an input with no EUR record at all raises
MissingBaseCurrency. -/
theorem claim_C7_witness :
    transform_to_fact_table "ts" sampleNoEUR = Except.error TransformError.missingBaseCurrency :=
  claim_C7_amended "ts" sampleNoEUR (by decide) (by decide) (by decide)

/-- C7 counterexample: EUR has no record on 2024-01-03 of
`sampleMissingEUR` (though it has one on 2024-01-02), yet the claim's
promised MissingBaseCurrency failure does not happen — the
transformation succeeds with 98 rows, the 2024-01-03 EUR-based rows
carrying NaN rates. -/
theorem claim_C7_counterexample :
    transform_to_fact_table "ts" sampleMissingEUR = Except.ok tableMissingEUR ∧
    tableMissingEUR.length = 98 ∧
    (tableMissingEUR.filter (fun r =>
        r.exchange_date == "2024-01-03" && r.base_currency == "EUR" &&
          r.quote_currency == "NOK")).map (fun r => r.rate) = [Cell.nan] :=
  ⟨rfl, rfl, rfl⟩

/-- C1 (amended): a universe currency that is a pivot column of no date
at all makes the pair loop raise a KeyError naming a missing universe
currency (not an IncompleteRateVector naming date and currency); a
currency missing on only some dates instead yields NaN cells and rows
are still emitted. -/
theorem claim_C1_amended (now : String) (recs : List BaseRateRecord) (c : String)
    (hne : recs ≠ []) (hnd : (pivotKeys recs).Nodup)
    (hEUR : BASE_CURRENCY ∈ pivotColumns recs)
    (hc : c ∈ TARGET_CURRENCIES) (hmiss : c ∉ pivotColumns recs) :
    ∃ missing, missing ∈ TARGET_CURRENCIES ∧ missing ∉ pivotColumns recs ∧
      transform_to_fact_table now recs = Except.error (TransformError.keyError missing) := by
  have hccpair : (c, c) ∈ currencyPairs TARGET_CURRENCIES := mem_currencyPairs.mpr ⟨hc, hc⟩
  have hfail : ∀ d : String, ∀ ys,
      exceptMap (pairRow (pivotColumns recs) recs now d) (currencyPairs TARGET_CURRENCIES) ≠
        Except.ok ys := by
    intro d ys hE
    obtain ⟨y, hy⟩ := exceptMap_ok_all _ _ _ hE (c, c) hccpair
    simp [pairRow, hmiss] at hy
  obtain ⟨d0, hd0⟩ := List.exists_mem_of_ne_nil _ (pivotDates_ne_nil recs hne)
  cases hOuter : exceptMap
      (fun d => exceptMap (pairRow (pivotColumns recs) recs now d) (currencyPairs TARGET_CURRENCIES))
      (pivotDates recs) with
  | ok rows =>
    exfalso
    obtain ⟨ys, hys⟩ := exceptMap_ok_all _ _ _ hOuter d0 hd0
    exact hfail d0 ys hys
  | error e =>
    obtain ⟨d1, -, hinner⟩ := exceptMap_error_mem _ _ _ hOuter
    obtain ⟨p, hp, hpr⟩ := exceptMap_error_mem _ _ _ hinner
    obtain ⟨c', he, hc'cols, hor⟩ := pairRow_error hpr
    obtain ⟨h1, h2⟩ := mem_currencyPairs.mp hp
    refine ⟨c', ?_, hc'cols, ?_⟩
    · rcases hor with rfl | rfl
      · exact h1
      · exact h2
    · rw [transform_to_fact_table,
        transformCore_loop TARGET_CURRENCIES now recs hne hnd hEUR, hOuter, he]

/-- C1 witness: with SEK absent from the single date of
`sampleOneDateNoSEK`, the transformation fails with a KeyError naming a
missing universe currency. -/
theorem claim_C1_witness :
    ∃ missing, missing ∈ TARGET_CURRENCIES ∧ missing ∉ pivotColumns sampleOneDateNoSEK ∧
      transform_to_fact_table "ts" sampleOneDateNoSEK =
        Except.error (TransformError.keyError missing) :=
  claim_C1_amended "ts" sampleOneDateNoSEK "SEK"
    (by decide) (by decide) (by decide) (by decide) (by decide)

/-- C1 counterexample: on `sampleMissingSEK` the date 2024-01-03 has
records for six of the seven universe currencies but none for SEK, yet
the transformation does not fail at all — it returns 98 rows, the
missing cell silently defaulted to NaN (the (SEK, NOK) row of that date
shown here), contradicting the claimed IncompleteRateVector failure. -/
theorem claim_C1_counterexample :
    transform_to_fact_table "ts" sampleMissingSEK = Except.ok tableMissingSEK ∧
    tableMissingSEK.length = 98 ∧
    (tableMissingSEK.filter (fun r =>
        r.exchange_date == "2024-01-03" && r.base_currency == "SEK" &&
          r.quote_currency == "NOK")).map (fun r => r.rate) = [Cell.nan] :=
  ⟨rfl, rfl, rfl⟩

/-- The first kept element of a filtered list, when one exists, is a
member of the original list. -/
theorem filter_getD_mem (l : List CrossRateRecord) (p : CrossRateRecord → Bool)
    (h : 0 < (l.filter p).length) : (l.filter p).getD 0 default ∈ l := by
  have hmem : (l.filter p).getD 0 default ∈ l.filter p := by
    cases hf : l.filter p with
    | nil => rw [hf] at h; simp at h
    | cons x xs => exact List.mem_cons_self _ _
  exact List.mem_of_mem_filter hmem

/-- C2 (amended): the (A, A) row has rate 1.0 and inverse 1.0 provided
the pivoted cell for A on that date holds an actual nonzero rate — the
zero guard makes a zero cell yield 0.0 instead, so the claimed
"no nonzero precondition" does not hold. -/
theorem claim_C2_amended (now : String) (recs : List BaseRateRecord)
    (l : List CrossRateRecord) (r : CrossRateRecord) (a : ℚ)
    (h : transform_to_fact_table now recs = Except.ok l) (hr : r ∈ l)
    (hAA : r.base_currency = r.quote_currency)
    (hcell : pivotCell recs r.exchange_date r.base_currency = Cell.val a)
    (ha : a ≠ 0) :
    r.rate = Cell.val 1 ∧ r.rate_inverse = Cell.val 1 := by
  obtain ⟨-, -, -, hchar⟩ := transformCore_ok_mem TARGET_CURRENCIES now recs l r h hr
  have hq : pivotCell recs r.exchange_date r.quote_currency = Cell.val a := by
    rw [← hAA]; exact hcell
  have haa : a / a = 1 := div_self ha
  constructor
  · conv_lhs => rw [hchar]
    rw [crossRow_rate, hcell, hq]
    simp [Cell.eqZero, Cell.div, ha, haa]
  · conv_lhs => rw [hchar]
    rw [crossRow_rate_inverse, hcell, hq]
    simp [Cell.eqZero, Cell.neZero, Cell.div, ha, haa]

/-- C2 witness: the (NOK, NOK) row of the complete sample has rate 1.0
and inverse 1.0. -/
theorem claim_C2_witness :
    rowNOKNOK.rate = Cell.val 1 ∧ rowNOKNOK.rate_inverse = Cell.val 1 :=
  claim_C2_amended "ts" sampleComplete tableComplete rowNOKNOK 12
    rfl (filter_getD_mem tableComplete _ (by decide)) rfl rfl (by decide)

/-- C2 counterexample: with the SEK rate 0 on 2024-01-02, the unique
(SEK, SEK) row of the output has rate 0.0 and inverse 0.0, not the
claimed 1.0 — the zero-rate guard overrides the identity formula. -/
theorem claim_C2_counterexample :
    transform_to_fact_table "ts" sampleZeroSEK = Except.ok tableZeroSEK ∧
    (tableZeroSEK.filter
      (fun r => r.base_currency == "SEK" && r.quote_currency == "SEK")).length = 1 ∧
    rowZeroSEKSEK ∈ tableZeroSEK ∧
    rowZeroSEKSEK.base_currency = "SEK" ∧ rowZeroSEKSEK.quote_currency = "SEK" ∧
    rowZeroSEKSEK.rate = Cell.val 0 ∧ rowZeroSEKSEK.rate_inverse = Cell.val 0 := by
  refine ⟨rfl, rfl, filter_getD_mem tableZeroSEK _ (by decide), rfl, rfl, rfl, rfl⟩

/-- C3 (confirmed): for any successfully produced row, a zero pivot
cell of the row's first leg forces rate 0.0 and inverse 0.0 (no
division-by-zero failure exists — the error type of the embedding, read
off the code, has no such case); and for actual cells the rate is the
quotient quote-cell over base-cell with the inverse the guarded
reciprocal. -/
theorem claim_C3_zero_guard (now : String) (recs : List BaseRateRecord)
    (l : List CrossRateRecord) (r : CrossRateRecord)
    (h : transform_to_fact_table now recs = Except.ok l) (hr : r ∈ l) :
    (pivotCell recs r.exchange_date r.base_currency = Cell.val 0 →
      r.rate = Cell.val 0 ∧ r.rate_inverse = Cell.val 0) ∧
    (∀ a b : ℚ, pivotCell recs r.exchange_date r.base_currency = Cell.val a → a ≠ 0 →
      pivotCell recs r.exchange_date r.quote_currency = Cell.val b →
      r.rate = Cell.val (b / a) ∧
        r.rate_inverse = if b / a = 0 then Cell.val 0 else Cell.val (a / b)) := by
  obtain ⟨-, -, -, hchar⟩ := transformCore_ok_mem TARGET_CURRENCIES now recs l r h hr
  constructor
  · intro hzero
    constructor
    · conv_lhs => rw [hchar]
      rw [crossRow_rate, hzero]
      simp [Cell.eqZero]
    · conv_lhs => rw [hchar]
      rw [crossRow_rate_inverse, hzero]
      simp [Cell.eqZero, Cell.neZero]
  · intro a b hca ha hcb
    constructor
    · conv_lhs => rw [hchar]
      rw [crossRow_rate, hca, hcb]
      simp [Cell.eqZero, Cell.div, ha]
    · conv_lhs => rw [hchar]
      rw [crossRow_rate_inverse, hca, hcb]
      by_cases hba : b / a = 0
      · simp [Cell.eqZero, Cell.neZero, Cell.div, ha, hba]
      · simp [Cell.eqZero, Cell.neZero, Cell.div, ha, hba, one_div_div]

/-- C3 witness: the zero SEK cell of `sampleZeroSEK` gives the
(SEK, SEK) row rate 0.0 and inverse 0.0 without any failure. -/
theorem claim_C3_witness :
    rowZeroSEKSEK.rate = Cell.val 0 ∧ rowZeroSEKSEK.rate_inverse = Cell.val 0 :=
  (claim_C3_zero_guard "ts" sampleZeroSEK tableZeroSEK rowZeroSEKSEK
    rfl (filter_getD_mem tableZeroSEK _ (by decide))).1 rfl

/-- C5 (confirmed): two output rows of one date whose legs are swapped
have exactly reciprocal rates whenever the first row's rate is an
actual nonzero rational. -/
theorem claim_C5_inversion (now : String) (recs : List BaseRateRecord)
    (l : List CrossRateRecord) (r1 r2 : CrossRateRecord) (q : ℚ)
    (h : transform_to_fact_table now recs = Except.ok l)
    (h1 : r1 ∈ l) (h2 : r2 ∈ l)
    (hdate : r2.exchange_date = r1.exchange_date)
    (hbase : r2.base_currency = r1.quote_currency)
    (hquote : r2.quote_currency = r1.base_currency)
    (hrate : r1.rate = Cell.val q) (hq : q ≠ 0) :
    r2.rate = Cell.val (1 / q) := by
  obtain ⟨-, -, -, hchar1⟩ := transformCore_ok_mem TARGET_CURRENCIES now recs l r1 h h1
  obtain ⟨-, -, -, hchar2⟩ := transformCore_ok_mem TARGET_CURRENCIES now recs l r2 h h2
  rw [hchar1, crossRow_rate] at hrate
  cases hA : pivotCell recs r1.exchange_date r1.base_currency with
  | nan =>
    exfalso
    rw [hA] at hrate
    cases hB : pivotCell recs r1.exchange_date r1.quote_currency with
    | nan => rw [hB] at hrate; simp [Cell.eqZero, Cell.div] at hrate
    | val b => rw [hB] at hrate; simp [Cell.eqZero, Cell.div] at hrate
  | val a =>
    rw [hA] at hrate
    by_cases haz : a = 0
    · exfalso
      rw [haz] at hrate
      simp [Cell.eqZero] at hrate
      exact hq hrate.symm
    · cases hB : pivotCell recs r1.exchange_date r1.quote_currency with
      | nan =>
        exfalso
        rw [hB] at hrate
        simp [Cell.eqZero, Cell.div, haz] at hrate
      | val b =>
        rw [hB] at hrate
        simp [Cell.eqZero, Cell.div, haz] at hrate
        have hb : b ≠ 0 := by
          intro hb0
          rw [hb0, zero_div] at hrate
          exact hq hrate.symm
        rw [hchar2, crossRow_rate, hdate, hbase, hquote, hA, hB]
        have hbz : Cell.eqZero (Cell.val b) = false := by simp [Cell.eqZero, hb]
        rw [hbz]
        simp only [Bool.false_eq_true, if_false, Cell.div]
        rw [← hrate, one_div_div]

/-- C5 witness: the (SEK, NOK) row of the complete sample has the
reciprocal of the (NOK, SEK) row's rate 22/23. -/
theorem claim_C5_witness :
    rowSEKNOK.rate = Cell.val (1 / ((11 : ℚ) / 12)) :=
  claim_C5_inversion "ts" sampleComplete tableComplete rowNOKSEK rowSEKNOK (11 / 12)
    rfl (filter_getD_mem tableComplete _ (by decide))
    (filter_getD_mem tableComplete _ (by decide))
    rfl rfl rfl rfl (by norm_num)

/-- C4 (amended): for a nonempty input in which every date has a record
for every universe currency and no two records share an
(exchange_date, quote_currency) pivot key, the transformation succeeds
and emits exactly (number of distinct dates) × 49 rows — the
duplicate-free condition is forced by the pivot, which raises on
duplicate keys before any row is produced. -/
theorem claim_C4_amended (now : String) (recs : List BaseRateRecord)
    (hne : recs ≠ []) (hnd : (pivotKeys recs).Nodup)
    (hcomp : ∀ d ∈ pivotDates recs, ∀ c ∈ TARGET_CURRENCIES,
      ∃ rec ∈ recs, rec.exchange_date = d ∧ rec.quote_currency = c) :
    ∃ l, transform_to_fact_table now recs = Except.ok l ∧
      l.length = (pivotDates recs).length * 49 := by
  obtain ⟨d0, hd0⟩ := List.exists_mem_of_ne_nil _ (pivotDates_ne_nil recs hne)
  have hcols : ∀ c ∈ TARGET_CURRENCIES, c ∈ pivotColumns recs := by
    intro c hc
    obtain ⟨rec, hrec, -, hqc⟩ := hcomp d0 hd0 c hc
    rw [← hqc]
    exact quote_mem_pivotColumns hrec
  have hEUR : BASE_CURRENCY ∈ pivotColumns recs := hcols BASE_CURRENCY (by decide)
  have hinner : ∀ d ∈ pivotDates recs,
      ∃ ys, exceptMap (pairRow (pivotColumns recs) recs now d)
        (currencyPairs TARGET_CURRENCIES) = Except.ok ys ∧ ys.length = 49 := by
    intro d _
    have hall : ∀ p ∈ currencyPairs TARGET_CURRENCIES,
        ∃ y, pairRow (pivotColumns recs) recs now d p = Except.ok y := by
      intro p hp
      obtain ⟨hp1, hp2⟩ := mem_currencyPairs.mp hp
      exact ⟨_, by rw [pairRow, if_pos (hcols p.1 hp1), if_pos (hcols p.2 hp2)]⟩
    obtain ⟨ys, hys, hlen⟩ := exceptMap_ok_of_all _ _ hall
    exact ⟨ys, hys, by rw [hlen]; rfl⟩
  obtain ⟨L, hL, hLlen⟩ := exceptMap_flatten_length _ _ 49 hinner
  refine ⟨L.flatten, ?_, hLlen⟩
  rw [transform_to_fact_table,
    transformCore_loop TARGET_CURRENCIES now recs hne hnd hEUR, hL]

/-- C4 witness: the complete one-date sample yields a table of
1 × 49 rows. -/
theorem claim_C4_witness :
    ∃ l, transform_to_fact_table "ts" sampleComplete = Except.ok l ∧
      l.length = (pivotDates sampleComplete).length * 49 :=
  claim_C4_amended "ts" sampleComplete (by decide) (by decide) (by decide)

/-- C4 counterexample: `sampleDup` is nonempty and every date has a
record for every universe currency, yet the pivot's duplicate NOK
records make the transformation raise, so no rows at all are produced —
the claimed dates × 49 count fails without a duplicate-free side
condition. -/
theorem claim_C4_counterexample :
    (∀ d ∈ pivotDates sampleDup, ∀ c ∈ TARGET_CURRENCIES,
      ∃ rec ∈ sampleDup, rec.exchange_date = d ∧ rec.quote_currency = c) ∧
    transform_to_fact_table "ts" sampleDup =
      Except.error TransformError.duplicatePivotEntries :=
  ⟨by decide, rfl⟩

/-- C8 (amended): for a successfully flattened response none of whose
fetched records is base-quoted, the normalizer returns the fetched
records followed by the synthesized identity records, and each distinct
fetched date carries exactly one identity record; without that proviso
a fetched base-currency record at rate 1.0 makes the count two. -/
theorem claim_C8_amended (resp : EcbResponse) (fetched : List BaseRateRecord)
    (hf : normalizeAll resp = Except.ok fetched)
    (hq : ∀ rec ∈ fetched, rec.quote_currency ≠ BASE_CURRENCY) :
    fetch_ecb_data_for_ytd resp = Except.ok
      (fetched ++
        (firstDedup (fetched.map (fun r => r.exchange_date))).map identityRecord) ∧
    ∀ d ∈ fetched.map (fun r => r.exchange_date),
      ((fetched ++
        (firstDedup (fetched.map (fun r => r.exchange_date))).map identityRecord).countP
          (isIdentityFor d)) = 1 := by
  constructor
  · rw [fetch_ecb_data_for_ytd, hf]
  · intro d hd
    rw [List.countP_append]
    have h0 : fetched.countP (isIdentityFor d) = 0 := by
      refine List.countP_eq_zero.mpr ?_
      intro rec hrec hpred
      rw [isIdentityFor] at hpred
      simp only [decide_eq_true_eq] at hpred
      exact hq rec hrec hpred.2.1
    have h1 : ((firstDedup (fetched.map (fun r => r.exchange_date))).map identityRecord).countP
        (isIdentityFor d) = 1 := by
      rw [List.countP_map]
      have hpe : (isIdentityFor d ∘ identityRecord) = fun x => decide (x = d) := by
        funext x
        simp [isIdentityFor, identityRecord, BASE_CURRENCY, Function.comp]
      rw [hpe]
      exact countP_eq_one_of_nodup_mem _ d (nodup_firstDedup _) ((mem_firstDedup _ _).mpr hd)
    rw [h0, h1]

/-- C8 witness: the two-series sample response yields the two fetched
records followed by the identity records, with exactly one identity
record for its single date. -/
theorem claim_C8_witness :
    fetch_ecb_data_for_ytd sampleResp = Except.ok
      (sampleFetched ++
        (firstDedup (sampleFetched.map (fun r => r.exchange_date))).map identityRecord) ∧
    ((sampleFetched ++
      (firstDedup (sampleFetched.map (fun r => r.exchange_date))).map identityRecord).countP
        (isIdentityFor "2024-01-02")) = 1 :=
  ⟨(claim_C8_amended sampleResp sampleFetched rfl (by decide)).1,
   (claim_C8_amended sampleResp sampleFetched rfl (by decide)).2 "2024-01-02" (by decide)⟩

/-- C8 counterexample: a parseable response carrying an EUR series at
rate 1.0 yields two records with the base currency as quote and rate
1.0 for the one distinct date — the fetched one and the synthesized
one — so the claimed "exactly one" fails on this upstream shape. -/
theorem claim_C8_counterexample :
    fetch_ecb_data_for_ytd sampleRespEUR =
      Except.ok [identityRecord "2024-01-02", identityRecord "2024-01-02"] ∧
    ([identityRecord "2024-01-02", identityRecord "2024-01-02"].countP
      (isIdentityFor "2024-01-02")) = 2 :=
  ⟨rfl, by decide⟩

/-- C9 (confirmed): over the three-currency universe EUR, NOK, SEK with
base EUR, the scenario input (EUR/EUR 1.0, EUR/NOK 11.5, EUR/SEK 11.0
on 2024-01-02) yields exactly 9 rows; the (NOK, SEK) row's rate is
11.0 / 11.5, the (SEK, NOK) row's rate is 11.5 / 11.0, and the product
of those two rates is exactly 1 in rational arithmetic. -/
theorem claim_C9_scenario :
    transformCore scenarioUniverse "ts" scenarioRecords = Except.ok tableScenario ∧
    tableScenario.length = 9 ∧
    (tableScenario.filter
        (fun r => r.base_currency == "NOK" && r.quote_currency == "SEK")).map
      (fun r => r.rate) = [Cell.val (11 / (23 / 2))] ∧
    (tableScenario.filter
        (fun r => r.base_currency == "SEK" && r.quote_currency == "NOK")).map
      (fun r => r.rate) = [Cell.val ((23 / 2) / 11)] ∧
    (11 / (23 / 2) : ℚ) * ((23 / 2) / 11) = 1 := by
  have hden : ((23 : ℚ) / 2) ≠ 0 := by norm_num
  have hden11 : (11 : ℚ) ≠ 0 := by norm_num
  refine ⟨rfl, rfl, ?_, ?_, by norm_num⟩
  · have h3 : (tableScenario.filter
        (fun r => r.base_currency == "NOK" && r.quote_currency == "SEK")).map
          (fun r => r.rate) =
        [(crossRow "ts" "2024-01-02" "NOK" "SEK"
          (pivotCell scenarioRecords "2024-01-02" "NOK")
          (pivotCell scenarioRecords "2024-01-02" "SEK")).rate] := rfl
    rw [h3, crossRow_rate]
    have hN : pivotCell scenarioRecords "2024-01-02" "NOK" = Cell.val (23 / 2) := rfl
    have hS : pivotCell scenarioRecords "2024-01-02" "SEK" = Cell.val 11 := rfl
    rw [hN, hS]
    have hz : Cell.eqZero (Cell.val ((23 : ℚ) / 2)) = false := by simp [Cell.eqZero, hden]
    rw [hz]
    simp [Cell.div]
  · have h4 : (tableScenario.filter
        (fun r => r.base_currency == "SEK" && r.quote_currency == "NOK")).map
          (fun r => r.rate) =
        [(crossRow "ts" "2024-01-02" "SEK" "NOK"
          (pivotCell scenarioRecords "2024-01-02" "SEK")
          (pivotCell scenarioRecords "2024-01-02" "NOK")).rate] := rfl
    rw [h4, crossRow_rate]
    have hN : pivotCell scenarioRecords "2024-01-02" "NOK" = Cell.val (23 / 2) := rfl
    have hS : pivotCell scenarioRecords "2024-01-02" "SEK" = Cell.val 11 := rfl
    rw [hN, hS]
    have hz : Cell.eqZero (Cell.val (11 : ℚ)) = false := by simp [Cell.eqZero, hden11]
    rw [hz]
    simp [Cell.div]
